import Mathlib

/-!
Verification development for the photon-gun healthcheck engine.

The Rust sources are shallowly embedded: the HTTP prober and the Lua script
sandbox become pure classification functions over an oracle describing the
observed network / interpreter outcomes, the gRPC control server becomes a
state machine over an explicit server state (store rows, handler map, spawned
task tokens), and the table-name base64 codec is modelled byte-for-byte.
Strings that the Rust code treats as opaque UTF-8 (service names fed to the
base64 codec) are modelled by their byte lists, so Rust's `from_utf8` step is
the identity there.
-/

namespace PhotonGun

/-! ## HTTP prober (src/healthcheck/basic.rs, and the identical
    classification in src/healthcheck.rs `HealthcheckService::ping`) -/

/-- One observed outcome of `http_client.get(&self.endpoint).send().await`:
either a transport-level failure carrying its stringified error, or a
response carrying its numeric status code and canonical reason phrase. -/
inductive HttpOutcome
  | transportErr (err : String)
  | response (code : Nat) (reason : String)
deriving DecidableEq, Repr

/-- `res.status().is_success()`: true exactly for the 200-299 codes. -/
def isSuccess (code : Nat) : Bool := 200 ≤ code && code < 300

/-- `res.status().to_string()`: the http crate renders a status as
`"{code} {canonical reason}"`, e.g. `"404 Not Found"`. -/
def statusLine (code : Nat) (reason : String) : String :=
  toString code ++ " " ++ reason

/-- `BasicCheck::run` (src/healthcheck/basic.rs lines 55-70): issues exactly
one GET against the endpoint and classifies the outcome.  The network is an
oracle `net`; the second component counts the requests issued (the body
contains a single `send()` call and no retry).  A transport error yields
`Err` with the stringified error; a non-2xx status yields `Err` with the
stringified status line; a 2xx response yields `Ok`. -/
def BasicCheck.run (net : Nat → HttpOutcome) : Except String Unit × Nat :=
  match net 0 with
  | .transportErr err => (.error err, 1)
  | .response code reason =>
    if !isSuccess code then (.error (statusLine code reason), 1)
    else (.ok (), 1)

/-- The pass/message pair recorded by `BasicCheck::spawn`
(src/healthcheck/basic.rs lines 36-45): `Ok(_)` becomes
`(true, String::new())`, `Err(err)` becomes `(false, err)`. -/
def BasicCheck.spawnResult (runResult : Except String Unit) : Bool × String :=
  match runResult with
  | .ok _ => (true, "")
  | .error err => (false, err)

/-! ## Lua script sandbox (src/healthcheck/luxury.rs) -/

/-- The interpreter-side outcomes one `LuxuryCheck::run` call can observe:
the result of installing the `photon` module table into the Lua context, and
the result of `ctx.load(&self.script).eval()` (error text already stringified,
as `err.to_string()` produces it, traceback included). -/
structure LuaEnv where
  moduleLoad : Except String Unit
  scriptResult : Except String String

/-- `LuxuryCheck::run` (src/healthcheck/luxury.rs lines 57-109): if loading
the photon module fails the stringified error is returned; otherwise the
script is evaluated and an evaluation error is caught (`match ... Err`) and
returned as `Err` of its stringified text, a normal return as `Ok`.  The
function is total: both failure paths return rather than crash. -/
def LuxuryCheck.run (env : LuaEnv) : Except String String :=
  match env.moduleLoad with
  | .error err => .error err
  | .ok _ => env.scriptResult

/-- The pass/message pair recorded by `LuxuryCheck::spawn`
(src/healthcheck/luxury.rs lines 31-55): `Ok(msg)` becomes `(true, msg)` —
the script's string return value is the recorded success message — and
`Err(err)` becomes `(false, err)`. -/
def LuxuryCheck.spawnResult (runResult : Except String String) : Bool × String :=
  match runResult with
  | .ok msg => (true, msg)
  | .error err => (false, err)

/-! ## Table-name codec (src/healthcheck/mod.rs lines 96-134)

Service names and table names are modelled by their UTF-8 byte lists. -/

/-- One 6-bit group rendered as a byte of the `base64::URL_SAFE` alphabet:
`A-Z`, `a-z`, `0-9`, `-`, `_`. -/
def sextetByte (n : Nat) : Nat :=
  if n < 26 then 65 + n
  else if n < 52 then 97 + (n - 26)
  else if n < 62 then 48 + (n - 52)
  else if n = 62 then 45
  else 95

/-- Inverse of `sextetByte`; `none` on bytes outside the URL-safe alphabet
(this is how `base64::decode_config` rejects an invalid character). -/
def byteSextet (b : Nat) : Option Nat :=
  if 65 ≤ b ∧ b ≤ 90 then some (b - 65)
  else if 97 ≤ b ∧ b ≤ 122 then some (b - 97 + 26)
  else if 48 ≤ b ∧ b ≤ 57 then some (b - 48 + 52)
  else if b = 45 then some 62
  else if b = 95 then some 63
  else none

/-- The `'='` padding byte. -/
def padByte : Nat := 61

/-- `base64::encode_config(_, base64::URL_SAFE)` on a byte list: each group
of three bytes becomes four alphabet bytes; a final group of one or two bytes
is padded with `=` (the `URL_SAFE` config pads). -/
def b64encode : List Nat → List Nat
  | [] => []
  | [b1] => [sextetByte (b1 / 4), sextetByte (b1 % 4 * 16), padByte, padByte]
  | [b1, b2] =>
    [sextetByte (b1 / 4), sextetByte (b1 % 4 * 16 + b2 / 16),
     sextetByte (b2 % 16 * 4), padByte]
  | b1 :: b2 :: b3 :: rest =>
    sextetByte (b1 / 4) :: sextetByte (b1 % 4 * 16 + b2 / 16) ::
    sextetByte (b2 % 16 * 4 + b3 / 64) :: sextetByte (b3 % 64) :: b64encode rest

/-- `base64::decode_config(_, base64::URL_SAFE)`: reads four bytes at a time;
padding is only legal at the very end (at most two `=`), every other byte
must be in the alphabet, and bits discarded before padding must be zero. -/
def b64decode : List Nat → Option (List Nat)
  | [] => some []
  | c1 :: c2 :: c3 :: c4 :: rest =>
    if c3 = padByte ∧ c4 = padByte ∧ rest = [] then do
      let s1 ← byteSextet c1
      let s2 ← byteSextet c2
      if s2 % 16 = 0 then pure [s1 * 4 + s2 / 16] else none
    else if c4 = padByte ∧ rest = [] then do
      let s1 ← byteSextet c1
      let s2 ← byteSextet c2
      let s3 ← byteSextet c3
      if s3 % 4 = 0 then pure [s1 * 4 + s2 / 16, s2 % 16 * 16 + s3 / 4]
      else none
    else do
      let s1 ← byteSextet c1
      let s2 ← byteSextet c2
      let s3 ← byteSextet c3
      let s4 ← byteSextet c4
      let tail ← b64decode rest
      pure ((s1 * 4 + s2 / 16) :: (s2 % 16 * 16 + s3 / 4) ::
            (s3 % 4 * 64 + s4) :: tail)
  | _ => none

/-- The ASCII bytes of `"check_"`. -/
def checkTag : List Nat := [99, 104, 101, 99, 107, 95]

/-- `encode_table_name` (src/healthcheck/mod.rs lines 96-104):
`format!("\x7b\x7d", ...)` over `"\"check_{}\""` — the base64 of the name
between a `check_` tag and a pair of double-quote bytes (34). -/
def encode_table_name (given : List Nat) : List Nat :=
  34 :: (checkTag ++ b64encode given) ++ [34]

/-- Rust's `str::strip_prefix`: drops `pat` from the front of `l` when `l`
starts with it, otherwise `none`. -/
def stripLeading (pat l : List Nat) : Option (List Nat) :=
  match pat, l with
  | [], l => some l
  | _ :: _, [] => none
  | p :: ps, x :: xs => if x = p then stripLeading ps xs else none

/-- `decode_table_name` (src/healthcheck/mod.rs lines 106-134): strip the
`check_` tag (falling back, with a warning, to the whole input when the tag
is absent), base64-decode, and re-read the bytes as UTF-8.  Since strings are
modelled by their UTF-8 byte lists, the `from_utf8` step is the identity and
its failure branch cannot fire here. -/
def decode_table_name (given : List Nat) : Option (List Nat) :=
  let b64 :=
    match stripLeading checkTag given with
    | some val => val
    | none => given
  b64decode b64

/-! ### Codec lemmas -/

theorem byteSextet_sextetByte : ∀ n < 64, byteSextet (sextetByte n) = some n := by
  decide

theorem sextetByte_ne_pad (n : Nat) : ¬ sextetByte n = padByte := by
  unfold sextetByte padByte
  split
  · omega
  · split
    · omega
    · split
      · omega
      · split <;> omega

theorem stripLeading_append (pat l : List Nat) :
    stripLeading pat (pat ++ l) = some l := by
  induction pat with
  | nil => rfl
  | cons p ps ih => simp [stripLeading, ih]

theorem b64decode_encode :
    ∀ bs : List Nat, (∀ b ∈ bs, b < 256) → b64decode (b64encode bs) = some bs
  | [], _ => rfl
  | [b1], h => by
    have hb1 : b1 < 256 := h b1 (by simp)
    have h1 : byteSextet (sextetByte (b1 / 4)) = some (b1 / 4) :=
      byteSextet_sextetByte _ (by omega)
    have h2 : byteSextet (sextetByte (b1 % 4 * 16)) = some (b1 % 4 * 16) :=
      byteSextet_sextetByte _ (by omega)
    simp only [b64encode, b64decode]
    rw [if_pos (by simp)]
    simp only [h1, h2, Option.bind_eq_bind, Option.some_bind]
    rw [if_pos (by omega)]
    simp only [pure, Option.some.injEq, List.cons.injEq, and_true]
    omega
  | [b1, b2], h => by
    have hb1 : b1 < 256 := h b1 (by simp)
    have hb2 : b2 < 256 := h b2 (by simp)
    have h1 : byteSextet (sextetByte (b1 / 4)) = some (b1 / 4) :=
      byteSextet_sextetByte _ (by omega)
    have h2 : byteSextet (sextetByte (b1 % 4 * 16 + b2 / 16)) =
        some (b1 % 4 * 16 + b2 / 16) :=
      byteSextet_sextetByte _ (by omega)
    have h3 : byteSextet (sextetByte (b2 % 16 * 4)) = some (b2 % 16 * 4) :=
      byteSextet_sextetByte _ (by omega)
    simp only [b64encode, b64decode]
    rw [if_neg (by simp [sextetByte_ne_pad]), if_pos (by simp)]
    simp only [h1, h2, h3, Option.bind_eq_bind, Option.some_bind]
    rw [if_pos (by omega)]
    simp only [pure, Option.some.injEq, List.cons.injEq, and_true]
    omega
  | b1 :: b2 :: b3 :: rest, h => by
    have hb1 : b1 < 256 := h b1 (by simp)
    have hb2 : b2 < 256 := h b2 (by simp)
    have hb3 : b3 < 256 := h b3 (by simp)
    have hrest : ∀ b ∈ rest, b < 256 := fun b hb => h b (by simp [hb])
    have h1 : byteSextet (sextetByte (b1 / 4)) = some (b1 / 4) :=
      byteSextet_sextetByte _ (by omega)
    have h2 : byteSextet (sextetByte (b1 % 4 * 16 + b2 / 16)) =
        some (b1 % 4 * 16 + b2 / 16) :=
      byteSextet_sextetByte _ (by omega)
    have h3 : byteSextet (sextetByte (b2 % 16 * 4 + b3 / 64)) =
        some (b2 % 16 * 4 + b3 / 64) :=
      byteSextet_sextetByte _ (by omega)
    have h4 : byteSextet (sextetByte (b3 % 64)) = some (b3 % 64) :=
      byteSextet_sextetByte _ (by omega)
    have ih := b64decode_encode rest hrest
    show b64decode
      (sextetByte (b1 / 4) :: sextetByte (b1 % 4 * 16 + b2 / 16) ::
        sextetByte (b2 % 16 * 4 + b3 / 64) :: sextetByte (b3 % 64) ::
        b64encode rest) = _
    rw [b64decode]
    rw [if_neg (by simp [sextetByte_ne_pad]), if_neg (by simp [sextetByte_ne_pad])]
    simp only [h1, h2, h3, h4, ih, Option.bind_eq_bind, Option.some_bind]
    simp only [pure, Option.some.injEq, List.cons.injEq]
    refine ⟨by omega, by omega, by omega, trivial⟩

/-! ## gRPC control server (src/grpc/mod.rs, src/grpc/util.rs, src/db.rs)

The `tokio::sync::Mutex` around the handlers map serializes the
create/enable/disable/delete bodies, so the server is modelled as a state
machine whose operations run atomically.  Database calls may fail at the
connection level; each operation takes one boolean per database call it
makes, injecting that failure. -/

/-- The tonic status codes this server produces (`Code::Internal`,
`Code::InvalidArgument`), plus `Code::NotFound` for comparison with the
spec's claims. -/
inductive Code
  | internal
  | invalidArgument
  | notFound
deriving DecidableEq, Repr

/-- gRPC's client-error/server-fault split for the codes above:
`InvalidArgument` and `NotFound` blame the caller, `Internal` is a server
fault. -/
def Code.isClientError : Code → Bool
  | .internal => false
  | .invalidArgument => true
  | .notFound => true

/-- A tonic `Status`: code plus message. -/
structure GrpcStatus where
  code : Code
  msg : String
deriving DecidableEq, Repr

/-- How an sqlx call can fail here: `RowNotFound` from `fetch_one` on an
empty result set, or a connection-level failure. -/
inductive DbError
  | rowNotFound
  | connFail
deriving DecidableEq, Repr

/-- `err.to_string()` for the two failure shapes (sqlx's texts). -/
def DbError.toMessage : DbError → String
  | .rowNotFound => "no rows returned by a query that expected to return at least one row"
  | .connFail => "pool timed out while waiting for an open connection"

/-- The protobuf `Healthcheck` message / `healthchecks` row
(src/db.rs lines 7-14).  `enabled` is an `Option` because
`insert_healthcheck`'s INSERT never writes the column: `none` models the
never-written cell; the gRPC handlers never branch on it. -/
structure Healthcheck where
  id : Int
  name : Option String
  endpoint : String
  interval : Int
  enabled : Option Bool
deriving DecidableEq, Repr

/-- The `healthchecks` table plus its SERIAL id counter (ids are assigned
increasingly and never reused). -/
structure Store where
  rows : List (Int × Healthcheck)
  nextId : Int
deriving DecidableEq, Repr

/-- Row lookup by primary key. -/
def lookupRow (rows : List (Int × Healthcheck)) (id : Int) : Option Healthcheck :=
  (rows.find? (fun r => r.1 = id)).map (fun r => r.2)

/-- `UPDATE healthchecks SET enabled=_ WHERE id=_` on the row list. -/
def setEnabled (rows : List (Int × Healthcheck)) (id : Int) (b : Bool) :
    List (Int × Healthcheck) :=
  rows.map (fun r => if r.1 = id then (r.1, { r.2 with enabled := some b }) else r)

namespace db

/-- `db::get_healthcheck` (src/db.rs lines 114-118): `SELECT ... WHERE id`
via `fetch_one` — `RowNotFound` when the id is absent. -/
def get_healthcheck (st : Store) (id : Int) (ok : Bool) : Except DbError Healthcheck :=
  if !ok then .error .connFail
  else
    match lookupRow st.rows id with
    | some c => .ok c
    | none => .error .rowNotFound

/-- `db::insert_healthcheck` (src/db.rs lines 138-156): INSERT binding only
name, endpoint and interval, RETURNING the assigned id. -/
def insert_healthcheck (st : Store) (check : Healthcheck) (ok : Bool) :
    Except DbError (Int × Store) :=
  if !ok then .error .connFail
  else
    let id := st.nextId
    .ok (id,
      { rows := st.rows ++
          [(id, { id := id, name := check.name, endpoint := check.endpoint,
                  interval := check.interval, enabled := none })],
        nextId := st.nextId + 1 })

/-- `db::delete_healthcheck` (src/db.rs lines 200-205): DELETE RETURNING via
`fetch_one` — `RowNotFound` when the id is absent. -/
def delete_healthcheck (st : Store) (id : Int) (ok : Bool) :
    Except DbError (Healthcheck × Store) :=
  if !ok then .error .connFail
  else
    match lookupRow st.rows id with
    | some c => .ok (c, { rows := st.rows.filter (fun r => !(r.1 = id)), nextId := st.nextId })
    | none => .error .rowNotFound

/-- `db::enable_healthcheck` (src/db.rs lines 207-212): an UPDATE via
`execute`, which succeeds even when zero rows match. -/
def enable_healthcheck (st : Store) (id : Int) (ok : Bool) : Except DbError Store :=
  if !ok then .error .connFail
  else .ok { rows := setEnabled st.rows id true, nextId := st.nextId }

/-- `db::disable_healthcheck` (src/db.rs lines 214-219): same shape with
`enabled=false`. -/
def disable_healthcheck (st : Store) (id : Int) (ok : Bool) : Except DbError Store :=
  if !ok then .error .connFail
  else .ok { rows := setEnabled st.rows id false, nextId := st.nextId }

end db

/-- The `handlers` map `HashMap<i32, JoinHandle<()>>`; join handles are
modelled by distinct `Nat` tokens. -/
abbrev Handlers := List (Int × Nat)

/-- `HashMap::contains_key`. -/
def hmContains (m : Handlers) (id : Int) : Bool :=
  m.any (fun e => e.1 = id)

/-- The value `HashMap::remove` would return. -/
def hmLookup (m : Handlers) (id : Int) : Option Nat :=
  (m.find? (fun e => e.1 = id)).map (fun e => e.2)

/-- The map left behind by `HashMap::remove`. -/
def hmErase (m : Handlers) (id : Int) : Handlers :=
  m.filter (fun e => !(e.1 = id))

/-- `HashMap::insert` (replacing any previous binding for the key). -/
def hmInsert (m : Handlers) (id : Int) (h : Nat) : Handlers :=
  hmErase m id ++ [(id, h)]

/-- The whole `grpc::Server` state: the store behind the `PgPool`, the
handlers map, a counter producing fresh join-handle tokens, and the list of
handles that have been `abort()`ed (so that cancellation is observable). -/
structure ServerState where
  store : Store
  handlers : Handlers
  nextHandle : Nat
  aborted : List Nat
deriving DecidableEq, Repr

/-- `util::id_from_query_filter` (src/grpc/util.rs lines 7-20): a missing id
is rejected with `InvalidArgument`. -/
def id_from_query_filter (filter : Option Int) : Except GrpcStatus Int :=
  match filter with
  | some val => .ok val
  | none => .error ⟨.invalidArgument, "id is a required argument"⟩

/-- The message of enable's already-running rejection
(src/grpc/mod.rs line 170). -/
def alreadyRunningMsg (id : Int) : String :=
  "check with id " ++ toString id ++ " is already running"

/-- The message of disable's not-running rejection
(src/grpc/mod.rs line 204). -/
def notRunningMsg (id : Int) : String :=
  "check with id " ++ toString id ++ " is not running"

/-- `get_healthcheck` handler (src/grpc/mod.rs lines 36-51): pure read; a
db error is surfaced as `Status::new(Code::Internal, err.to_string())`. -/
def get_healthcheck (s : ServerState) (q : Option Int) (getOk : Bool) :
    Except GrpcStatus Healthcheck × ServerState :=
  match id_from_query_filter q with
  | .error st => (.error st, s)
  | .ok id =>
    match db.get_healthcheck s.store id getOk with
    | .error err => (.error ⟨.internal, err.toMessage⟩, s)
    | .ok val => (.ok val, s)

/-- `create_healthcheck` handler (src/grpc/mod.rs lines 90-118): insert
first — on failure return `Internal` before touching the handlers map — then
set the returned check's id and enabled flag, spawn the service and insert
its handle under the new id. -/
def create_healthcheck (s : ServerState) (check : Healthcheck) (insOk : Bool) :
    Except GrpcStatus Healthcheck × ServerState :=
  match db.insert_healthcheck s.store check insOk with
  | .error err => (.error ⟨.internal, err.toMessage⟩, s)
  | .ok (id, store') =>
    let check' := { check with id := id, enabled := some true }
    (.ok check',
      { store := store',
        handlers := hmInsert s.handlers id s.nextHandle,
        nextHandle := s.nextHandle + 1,
        aborted := s.aborted })

/-- `delete_healthcheck` handler (src/grpc/mod.rs lines 120-145): under the
lock, remove and abort the handle if present (ignoring absence), then delete
the row — a db failure is surfaced as `Internal` (after the handle was
already stopped). -/
def delete_healthcheck (s : ServerState) (q : Option Int) (delOk : Bool) :
    Except GrpcStatus Healthcheck × ServerState :=
  match id_from_query_filter q with
  | .error st => (.error st, s)
  | .ok id =>
    let s1 :=
      match hmLookup s.handlers id with
      | some h =>
        { s with handlers := hmErase s.handlers id, aborted := s.aborted ++ [h] }
      | none => s
    match db.delete_healthcheck s1.store id delOk with
    | .error err => (.error ⟨.internal, err.toMessage⟩, s1)
    | .ok (check, store') => (.ok check, { s1 with store := store' })

/-- `enable_healthcheck` handler (src/grpc/mod.rs lines 147-183): read the
definition (`Internal` on any db error, including row-not-found), then under
the lock write `enabled=true` to the store *before* the registry check, then
reject with the already-running `InvalidArgument` status if an entry exists,
otherwise spawn and insert the handle and return the definition read
earlier. -/
def enable_healthcheck (s : ServerState) (q : Option Int) (getOk updOk : Bool) :
    Except GrpcStatus Healthcheck × ServerState :=
  match id_from_query_filter q with
  | .error st => (.error st, s)
  | .ok id =>
    match db.get_healthcheck s.store id getOk with
    | .error err => (.error ⟨.internal, err.toMessage⟩, s)
    | .ok check =>
      match db.enable_healthcheck s.store id updOk with
      | .error err => (.error ⟨.internal, err.toMessage⟩, s)
      | .ok store' =>
        let s1 := { s with store := store' }
        if hmContains s1.handlers id then
          (.error ⟨.invalidArgument, alreadyRunningMsg id⟩, s1)
        else
          (.ok check,
            { s1 with handlers := hmInsert s1.handlers id s.nextHandle,
                      nextHandle := s.nextHandle + 1 })

/-- `disable_healthcheck` handler (src/grpc/mod.rs lines 185-215): under the
lock write `enabled=false` to the store first, then remove the entry —
rejecting with the not-running `InvalidArgument` status when none exists —
and abort the removed handle, returning the empty response. -/
def disable_healthcheck (s : ServerState) (q : Option Int) (updOk : Bool) :
    Except GrpcStatus Unit × ServerState :=
  match id_from_query_filter q with
  | .error st => (.error st, s)
  | .ok id =>
    match db.disable_healthcheck s.store id updOk with
    | .error err => (.error ⟨.internal, err.toMessage⟩, s)
    | .ok store' =>
      let s1 := { s with store := store' }
      match hmLookup s1.handlers id with
      | none => (.error ⟨.invalidArgument, notRunningMsg id⟩, s1)
      | some h =>
        (.ok (),
          { s1 with handlers := hmErase s1.handlers id,
                    aborted := s1.aborted ++ [h] })

/-! ### Operation sequences and well-formedness -/

/-- One serialized control-plane mutation, with its failure-injection
flags. -/
inductive Op
  | createOp (check : Healthcheck) (insOk : Bool)
  | deleteOp (q : Option Int) (delOk : Bool)
  | enableOp (q : Option Int) (getOk updOk : Bool)
  | disableOp (q : Option Int) (updOk : Bool)

/-- The state reached after one operation (responses discarded). -/
def step (s : ServerState) : Op → ServerState
  | .createOp check insOk => (create_healthcheck s check insOk).2
  | .deleteOp q delOk => (delete_healthcheck s q delOk).2
  | .enableOp q getOk updOk => (enable_healthcheck s q getOk updOk).2
  | .disableOp q updOk => (disable_healthcheck s q updOk).2

/-- The state reached after a sequence of serialized operations. -/
def execOps (s : ServerState) (ops : List Op) : ServerState :=
  ops.foldl step s

/-- The registry's live ids. -/
def handlerIds (s : ServerState) : List Int :=
  s.handlers.map Prod.fst

/-- The store's row ids. -/
def storeIds (s : ServerState) : List Int :=
  s.store.rows.map Prod.fst

/-- Well-formed server states: no duplicate handler key, every live handler
id has a store row, no duplicate row id, and all row ids are below the
SERIAL counter. -/
def WF (s : ServerState) : Prop :=
  (handlerIds s).Nodup ∧
  (∀ id ∈ handlerIds s, id ∈ storeIds s) ∧
  (storeIds s).Nodup ∧
  (∀ id ∈ storeIds s, id < s.store.nextId)

/-! ### Map and store lemmas -/

theorem hmContains_iff {m : Handlers} {id : Int} :
    hmContains m id = true ↔ id ∈ m.map Prod.fst := by
  simp only [hmContains, List.any_eq_true, decide_eq_true_eq, List.mem_map]

theorem hmLookup_none_iff {m : Handlers} {id : Int} :
    hmLookup m id = none ↔ id ∉ m.map Prod.fst := by
  induction m with
  | nil => simp [hmLookup]
  | cons e rest ih =>
    by_cases he : e.1 = id
    · simp [hmLookup, List.find?, he]
    · have hne : ¬ id = e.1 := fun h => he h.symm
      simp only [hmLookup, List.find?, List.map_cons,
        List.mem_cons, not_or] at ih ⊢
      simp [he, hne, ih]

theorem mem_keys_hmErase {m : Handlers} {id k : Int} :
    k ∈ (hmErase m id).map Prod.fst ↔ (k ∈ m.map Prod.fst ∧ ¬ k = id) := by
  simp only [hmErase, List.mem_map, List.mem_filter, Bool.not_eq_eq_eq_not,
    Bool.not_true, decide_eq_false_iff_not]
  constructor
  · rintro ⟨e, ⟨he, hne⟩, rfl⟩
    exact ⟨⟨e, he, rfl⟩, hne⟩
  · rintro ⟨⟨e, he, rfl⟩, hne⟩
    exact ⟨e, ⟨he, hne⟩, rfl⟩

theorem hmErase_keys_nodup {m : Handlers} (h : (m.map Prod.fst).Nodup) (id : Int) :
    ((hmErase m id).map Prod.fst).Nodup :=
  h.sublist ((List.filter_sublist m).map Prod.fst)

theorem mem_keys_hmInsert {m : Handlers} {id k : Int} {hd : Nat} :
    k ∈ (hmInsert m id hd).map Prod.fst ↔ (k ∈ m.map Prod.fst ∨ k = id) := by
  simp only [hmInsert, List.map_append, List.mem_append, mem_keys_hmErase,
    List.map_cons, List.map_nil, List.mem_singleton]
  by_cases hk : k = id <;> simp [hk]

theorem hmInsert_keys_nodup {m : Handlers} (h : (m.map Prod.fst).Nodup)
    (id : Int) (hd : Nat) : ((hmInsert m id hd).map Prod.fst).Nodup := by
  simp only [hmInsert, List.map_append, List.map_cons, List.map_nil]
  refine List.Nodup.append (hmErase_keys_nodup h id) (List.nodup_singleton id) ?_
  intro k hk1 hk2
  rw [List.mem_singleton] at hk2
  exact (mem_keys_hmErase.mp hk1).2 hk2

theorem setEnabled_keys (rows : List (Int × Healthcheck)) (id : Int) (b : Bool) :
    (setEnabled rows id b).map Prod.fst = rows.map Prod.fst := by
  unfold setEnabled
  rw [List.map_map]
  apply List.map_congr_left
  intro r _
  by_cases hr : r.1 = id <;> simp [hr]

theorem lookupRow_none_iff {rows : List (Int × Healthcheck)} {id : Int} :
    lookupRow rows id = none ↔ id ∉ rows.map Prod.fst := by
  induction rows with
  | nil => simp [lookupRow]
  | cons e rest ih =>
    by_cases he : e.1 = id
    · simp [lookupRow, List.find?, he]
    · have hne : ¬ id = e.1 := fun h => he h.symm
      simp only [lookupRow, List.find?, List.map_cons,
        List.mem_cons, not_or] at ih ⊢
      simp [he, hne, ih]

theorem lookupRow_mem {rows : List (Int × Healthcheck)} {id : Int} {c : Healthcheck}
    (h : lookupRow rows id = some c) : id ∈ rows.map Prod.fst := by
  by_contra habs
  rw [← lookupRow_none_iff] at habs
  rw [habs] at h
  exact Option.noConfusion h

theorem mem_keys_filterNe {rows : List (Int × Healthcheck)} {id k : Int} :
    k ∈ (rows.filter (fun r => !(r.1 = id))).map Prod.fst ↔
      (k ∈ rows.map Prod.fst ∧ ¬ k = id) := by
  simp only [List.mem_map, List.mem_filter, Bool.not_eq_eq_eq_not,
    Bool.not_true, decide_eq_false_iff_not]
  constructor
  · rintro ⟨e, ⟨he, hne⟩, rfl⟩
    exact ⟨⟨e, he, rfl⟩, hne⟩
  · rintro ⟨⟨e, he, rfl⟩, hne⟩
    exact ⟨e, ⟨he, hne⟩, rfl⟩

/-! ### Well-formedness preservation -/

theorem WF_create (s : ServerState) (check : Healthcheck) (insOk : Bool)
    (h : WF s) : WF (create_healthcheck s check insOk).2 := by
  obtain ⟨h1, h2, h3, h4⟩ := h
  cases insOk with
  | false => exact ⟨h1, h2, h3, h4⟩
  | true =>
    simp only [create_healthcheck, db.insert_healthcheck, Bool.not_true,
      Bool.false_eq_true, if_false]
    refine ⟨?_, ?_, ?_, ?_⟩
    · exact hmInsert_keys_nodup h1 _ _
    · intro id hid
      simp only [handlerIds] at hid
      rw [mem_keys_hmInsert] at hid
      simp only [storeIds, List.map_append, List.mem_append, List.map_cons,
        List.map_nil, List.mem_singleton]
      rcases hid with hid | hid
      · exact Or.inl (h2 id hid)
      · exact Or.inr hid
    · simp only [storeIds, List.map_append, List.map_cons, List.map_nil]
      refine List.Nodup.append h3 (List.nodup_singleton _) ?_
      intro k hk1 hk2
      rw [List.mem_singleton] at hk2
      have := h4 k hk1
      omega
    · intro id hid
      simp only [storeIds, List.map_append, List.mem_append, List.map_cons,
        List.map_nil, List.mem_singleton] at hid
      rcases hid with hid | hid
      · have := h4 id hid
        show id < s.store.nextId + 1
        omega
      · show id < s.store.nextId + 1
        omega

theorem WF_enable (s : ServerState) (q : Option Int) (getOk updOk : Bool)
    (h : WF s) : WF (enable_healthcheck s q getOk updOk).2 := by
  obtain ⟨h1, h2, h3, h4⟩ := h
  unfold enable_healthcheck
  cases q with
  | none => exact ⟨h1, h2, h3, h4⟩
  | some id =>
    simp only [id_from_query_filter]
    cases hget : db.get_healthcheck s.store id getOk with
    | error e => exact ⟨h1, h2, h3, h4⟩
    | ok check =>
      cases updOk with
      | false => exact ⟨h1, h2, h3, h4⟩
      | true =>
        have hid : id ∈ storeIds s := by
          unfold db.get_healthcheck at hget
          simp only [Bool.not_eq_eq_eq_not] at hget
          rcases hlook : lookupRow s.store.rows id with _ | c
          · cases getOk <;> simp [hlook] at hget
          · exact lookupRow_mem hlook
        simp only [db.enable_healthcheck, Bool.not_true, Bool.false_eq_true,
          if_false]
        cases hc : hmContains s.handlers id with
        | true =>
          rw [if_pos rfl]
          refine ⟨h1, ?_, ?_, ?_⟩
          · intro k hk
            simp only [storeIds, setEnabled_keys]
            exact h2 k hk
          · simp only [storeIds, setEnabled_keys]
            exact h3
          · intro k hk
            simp only [storeIds, setEnabled_keys] at hk
            exact h4 k hk
        | false =>
          rw [if_neg (by simp)]
          refine ⟨hmInsert_keys_nodup h1 _ _, ?_, ?_, ?_⟩
          · intro k hk
            simp only [handlerIds] at hk
            rw [mem_keys_hmInsert] at hk
            simp only [storeIds, setEnabled_keys]
            rcases hk with hk | hk
            · exact h2 k hk
            · rw [hk]
              exact hid
          · simp only [storeIds, setEnabled_keys]
            exact h3
          · intro k hk
            simp only [storeIds, setEnabled_keys] at hk
            exact h4 k hk

theorem WF_disable (s : ServerState) (q : Option Int) (updOk : Bool)
    (h : WF s) : WF (disable_healthcheck s q updOk).2 := by
  obtain ⟨h1, h2, h3, h4⟩ := h
  unfold disable_healthcheck
  cases q with
  | none => exact ⟨h1, h2, h3, h4⟩
  | some id =>
    simp only [id_from_query_filter]
    cases updOk with
    | false => exact ⟨h1, h2, h3, h4⟩
    | true =>
      simp only [db.disable_healthcheck, Bool.not_true, Bool.false_eq_true,
        if_false]
      cases hlk : hmLookup s.handlers id with
      | none =>
        refine ⟨h1, ?_, ?_, ?_⟩
        · intro k hk
          simp only [storeIds, setEnabled_keys]
          exact h2 k hk
        · simp only [storeIds, setEnabled_keys]
          exact h3
        · intro k hk
          simp only [storeIds, setEnabled_keys] at hk
          exact h4 k hk
      | some hd =>
        refine ⟨hmErase_keys_nodup h1 _, ?_, ?_, ?_⟩
        · intro k hk
          simp only [handlerIds] at hk
          rw [mem_keys_hmErase] at hk
          simp only [storeIds, setEnabled_keys]
          exact h2 k hk.1
        · simp only [storeIds, setEnabled_keys]
          exact h3
        · intro k hk
          simp only [storeIds, setEnabled_keys] at hk
          exact h4 k hk

theorem WF_delete (s : ServerState) (q : Option Int) (delOk : Bool)
    (h : WF s) : WF (delete_healthcheck s q delOk).2 := by
  obtain ⟨h1, h2, h3, h4⟩ := h
  unfold delete_healthcheck
  cases q with
  | none => exact ⟨h1, h2, h3, h4⟩
  | some id =>
    simp only [id_from_query_filter]
    have keep : ∀ s1 : ServerState,
        (s1.handlers.map Prod.fst).Nodup →
        (∀ k ∈ handlerIds s1, k ∈ storeIds s1 ∧ ¬ k = id) →
        (storeIds s1).Nodup →
        (∀ k ∈ storeIds s1, k < s1.store.nextId) →
        WF (match db.delete_healthcheck s1.store id delOk with
            | .error err => ((Except.error ⟨Code.internal, err.toMessage⟩ :
                Except GrpcStatus Healthcheck), s1)
            | .ok (check, store') => (.ok check, { s1 with store := store' })).2 := by
      intro s1 g1 g2 g3 g4
      cases delOk with
      | false => exact ⟨g1, fun k hk => (g2 k hk).1, g3, g4⟩
      | true =>
        simp only [db.delete_healthcheck, Bool.not_true, Bool.false_eq_true,
          if_false]
        cases hlook : lookupRow s1.store.rows id with
        | none => exact ⟨g1, fun k hk => (g2 k hk).1, g3, g4⟩
        | some c =>
          refine ⟨g1, ?_, ?_, ?_⟩
          · intro k hk
            have := g2 k hk
            simp only [storeIds] at this ⊢
            rw [mem_keys_filterNe]
            exact this
          · simp only [storeIds]
            exact g3.sublist ((List.filter_sublist s1.store.rows).map Prod.fst)
          · intro k hk
            simp only [storeIds] at hk
            rw [mem_keys_filterNe] at hk
            exact g4 k hk.1
    cases hlk : hmLookup s.handlers id with
    | none =>
      refine keep s h1 ?_ h3 h4
      intro k hk
      refine ⟨h2 k hk, ?_⟩
      intro hkid
      rw [hmLookup_none_iff] at hlk
      rw [hkid] at hk
      exact hlk hk
    | some hd =>
      refine keep _ (hmErase_keys_nodup h1 _) ?_ h3 h4
      intro k hk
      simp only [handlerIds] at hk
      rw [mem_keys_hmErase] at hk
      exact ⟨h2 k hk.1, hk.2⟩

theorem WF_step (s : ServerState) (op : Op) (h : WF s) : WF (step s op) := by
  cases op with
  | createOp check insOk => exact WF_create s check insOk h
  | deleteOp q delOk => exact WF_delete s q delOk h
  | enableOp q getOk updOk => exact WF_enable s q getOk updOk h
  | disableOp q updOk => exact WF_disable s q updOk h

theorem WF_execOps (s : ServerState) (ops : List Op) (h : WF s) :
    WF (execOps s ops) := by
  induction ops generalizing s with
  | nil => exact h
  | cons op rest ih => exact ih _ (WF_step s op h)

/-! ### Operation computation lemmas -/

theorem lookupRow_isSome_of_mem {rows : List (Int × Healthcheck)} {id : Int}
    (h : id ∈ rows.map Prod.fst) : ∃ c, lookupRow rows id = some c := by
  cases hl : lookupRow rows id with
  | none =>
    rw [lookupRow_none_iff] at hl
    exact absurd h hl
  | some c => exact ⟨c, rfl⟩

theorem hmContains_hmInsert_self (m : Handlers) (id : Int) (hd : Nat) :
    hmContains (hmInsert m id hd) id = true := by
  rw [hmContains_iff, mem_keys_hmInsert]
  exact Or.inr rfl

theorem enable_success_eq {s : ServerState} {id : Int} {c : Healthcheck}
    (hlook : lookupRow s.store.rows id = some c)
    (hc : hmContains s.handlers id = false) :
    enable_healthcheck s (some id) true true =
      (.ok c,
        { store := { rows := setEnabled s.store.rows id true,
                     nextId := s.store.nextId },
          handlers := hmInsert s.handlers id s.nextHandle,
          nextHandle := s.nextHandle + 1,
          aborted := s.aborted }) := by
  unfold enable_healthcheck id_from_query_filter db.get_healthcheck
    db.enable_healthcheck
  simp [hlook, hc]

theorem enable_already_running_eq {s : ServerState} {id : Int} {c : Healthcheck}
    (hlook : lookupRow s.store.rows id = some c)
    (hc : hmContains s.handlers id = true) :
    enable_healthcheck s (some id) true true =
      (.error ⟨.invalidArgument, alreadyRunningMsg id⟩,
        { store := { rows := setEnabled s.store.rows id true,
                     nextId := s.store.nextId },
          handlers := s.handlers,
          nextHandle := s.nextHandle,
          aborted := s.aborted }) := by
  unfold enable_healthcheck id_from_query_filter db.get_healthcheck
    db.enable_healthcheck
  simp [hlook, hc]

/-! ## Claim theorems -/

/-- C1: across every serialized sequence of Create/Enable/Disable/Delete
operations from a well-formed state, the handlers map keeps at most one live
entry per check id (its key list stays duplicate-free); for a
currently-stopped id present in the store an Enable succeeds and registers
the id; and any Enable issued while an entry exists fails with the
already-running `InvalidArgument` status and leaves the handlers map
unchanged — so of several serialized Enables for the same stopped id exactly
the first succeeds and no second entry is ever inserted. -/
theorem registry_single_entry_per_id (s : ServerState) (ops : List Op)
    (hwf : WF s) :
    ((execOps s ops).handlers.map Prod.fst).Nodup ∧
    (∀ id, id ∈ storeIds (execOps s ops) →
      hmContains (execOps s ops).handlers id = false →
      ((enable_healthcheck (execOps s ops) (some id) true true).1.isOk = true ∧
        hmContains
          (enable_healthcheck (execOps s ops) (some id) true true).2.handlers
          id = true)) ∧
    (∀ s' id, WF s' → hmContains s'.handlers id = true →
      (enable_healthcheck s' (some id) true true).1 =
        .error ⟨.invalidArgument, alreadyRunningMsg id⟩ ∧
      (enable_healthcheck s' (some id) true true).2.handlers = s'.handlers) := by
  have hwf' := WF_execOps s ops hwf
  refine ⟨hwf'.1, ?_, ?_⟩
  · intro id hid hc
    obtain ⟨c, hlook⟩ := lookupRow_isSome_of_mem hid
    rw [enable_success_eq hlook hc]
    exact ⟨rfl, hmContains_hmInsert_self _ _ _⟩
  · intro s' id hwfs hc
    have hid : id ∈ storeIds s' := hwfs.2.1 id (hmContains_iff.mp hc)
    obtain ⟨c, hlook⟩ := lookupRow_isSome_of_mem hid
    rw [enable_already_running_eq hlook hc]
    exact ⟨rfl, rfl⟩

/-- A concrete check definition, as a client would send it (id not yet
assigned). -/
def demoCheck : Healthcheck :=
  { id := 0, name := some "svc", endpoint := "http://localhost/healthcheck",
    interval := 5, enabled := none }

/-- The freshly-booted server: empty store (SERIAL counter at 1), empty
handlers map. -/
def demoInit : ServerState :=
  { store := { rows := [], nextId := 1 }, handlers := [], nextHandle := 0,
    aborted := [] }

/-- Witness for C1: create a check (assigned id 1), disable it, and the
Enable path of the theorem then registers id 1 again. -/
theorem registry_single_entry_per_id_witness :
    hmContains
      (enable_healthcheck
        (execOps demoInit [Op.createOp demoCheck true, Op.disableOp (some 1) true])
        (some 1) true true).2.handlers 1 = true :=
  ((registry_single_entry_per_id demoInit
      [Op.createOp demoCheck true, Op.disableOp (some 1) true]
      (by unfold WF; decide)).2.1 1 (by decide) (by decide)).2

/-- C2: a failing store insert makes Create return the `Internal` error with
the state — in particular the handlers map — untouched; a successful insert
makes Create return the stored definition carrying the store-assigned id
(and `enabled=true`), append the new row, register a handler for the new id
and consume a fresh task handle. -/
theorem create_insert_failure_aborts (s : ServerState) (check : Healthcheck) :
    create_healthcheck s check false =
      (.error ⟨.internal, DbError.connFail.toMessage⟩, s) ∧
    (create_healthcheck s check true).1 =
      .ok { check with id := s.store.nextId, enabled := some true } ∧
    (create_healthcheck s check true).2.handlers =
      hmInsert s.handlers s.store.nextId s.nextHandle ∧
    (create_healthcheck s check true).2.nextHandle = s.nextHandle + 1 ∧
    (create_healthcheck s check true).2.store.rows =
      s.store.rows ++
        [(s.store.nextId,
          { id := s.store.nextId, name := check.name,
            endpoint := check.endpoint, interval := check.interval,
            enabled := none })] :=
  ⟨rfl, rfl, rfl, rfl, rfl⟩

/-- C3: per execution the HTTP prober issues exactly one GET; a transport
failure is recorded as `pass=false` with the stringified transport error, a
response with status outside 200-299 as `pass=false` with the stringified
status line, and a 2xx response as `pass=true` with the empty message; the
404 status line contains "404". -/
theorem http_prober_classification (net : Nat → HttpOutcome) :
    (BasicCheck.run net).2 = 1 ∧
    (∀ err, net 0 = .transportErr err →
      BasicCheck.spawnResult (BasicCheck.run net).1 = (false, err)) ∧
    (∀ code reason, net 0 = .response code reason →
      ¬(200 ≤ code ∧ code ≤ 299) →
      BasicCheck.spawnResult (BasicCheck.run net).1 =
        (false, statusLine code reason)) ∧
    (∀ code reason, net 0 = .response code reason →
      (200 ≤ code ∧ code ≤ 299) →
      BasicCheck.spawnResult (BasicCheck.run net).1 = (true, "")) ∧
    (∃ tail, statusLine 404 "Not Found" = "404" ++ tail) := by
  refine ⟨?_, ?_, ?_, ?_, ⟨" Not Found", by decide⟩⟩
  · unfold BasicCheck.run
    cases net 0 with
    | transportErr err => rfl
    | response code reason =>
      dsimp only
      split <;> rfl
  · intro err hnet
    simp [BasicCheck.run, BasicCheck.spawnResult, hnet]
  · intro code reason hnet hfail
    have hs : isSuccess code = false := by
      simp only [isSuccess, Bool.and_eq_false_imp, decide_eq_true_eq,
        decide_eq_false_iff_not]
      omega
    simp [BasicCheck.run, BasicCheck.spawnResult, hnet, hs]
  · intro code reason hnet hpass
    have hs : isSuccess code = true := by
      simp only [isSuccess, Bool.and_eq_true, decide_eq_true_eq]
      omega
    simp [BasicCheck.run, BasicCheck.spawnResult, hnet, hs]

/-- Witness for C3: a 404 response is recorded as a failure whose message is
the status line "404 Not Found". -/
theorem http_prober_classification_witness :
    BasicCheck.spawnResult
      (BasicCheck.run (fun _ => HttpOutcome.response 404 "Not Found")).1 =
      (false, statusLine 404 "Not Found") :=
  (http_prober_classification
      (fun _ => HttpOutcome.response 404 "Not Found")).2.2.1
    404 "Not Found" rfl (by omega)

theorem enable_absent_eq {s : ServerState} {id : Int}
    (hlook : lookupRow s.store.rows id = none) (updOk : Bool) :
    enable_healthcheck s (some id) true updOk =
      (.error ⟨.internal, DbError.rowNotFound.toMessage⟩, s) := by
  unfold enable_healthcheck id_from_query_filter db.get_healthcheck
  simp [hlook]

/-- C4 counterexample: enabling an id absent from the store fails with the
`Internal` status code (the stringified sqlx row-not-found error), which is
not the client-error `NotFound` code the claim names. -/
theorem enable_absent_id_counterexample :
    (enable_healthcheck demoInit (some 1) true true).1 =
      .error ⟨.internal, DbError.rowNotFound.toMessage⟩ ∧
    Code.internal ≠ Code.notFound ∧
    Code.internal.isClientError = false :=
  ⟨rfl, by decide, rfl⟩

/-- C4 (amended): Enable writes `enabled=true` to the store before the
registry check — when an entry already exists it fails with the
already-running `InvalidArgument` status (a client error) with the store
already holding `enabled=true` and no new task; when no entry exists it
registers the task and returns the fetched definition; and for an id absent
from the store it fails, with no store write, carrying the store's
row-not-found failure surfaced as a gRPC `Internal` status (rather than the
claim's client `NotFound`). -/
theorem enable_ordering_and_errors (s : ServerState) (id : Int) :
    (lookupRow s.store.rows id = none →
      ∀ updOk, enable_healthcheck s (some id) true updOk =
        (.error ⟨.internal, DbError.rowNotFound.toMessage⟩, s)) ∧
    (∀ c, lookupRow s.store.rows id = some c →
      hmContains s.handlers id = true →
      enable_healthcheck s (some id) true true =
        (.error ⟨.invalidArgument, alreadyRunningMsg id⟩,
          { s with store := { rows := setEnabled s.store.rows id true,
                              nextId := s.store.nextId } }) ∧
      Code.invalidArgument.isClientError = true) ∧
    (∀ c, lookupRow s.store.rows id = some c →
      hmContains s.handlers id = false →
      enable_healthcheck s (some id) true true =
        (.ok c,
          { store := { rows := setEnabled s.store.rows id true,
                       nextId := s.store.nextId },
            handlers := hmInsert s.handlers id s.nextHandle,
            nextHandle := s.nextHandle + 1,
            aborted := s.aborted })) := by
  refine ⟨?_, ?_, ?_⟩
  · intro hlook updOk
    exact enable_absent_eq hlook updOk
  · intro c hlook hc
    exact ⟨enable_already_running_eq hlook hc, rfl⟩
  · intro c hlook hc
    exact enable_success_eq hlook hc

/-- The stored definition of check id 1 in `demoRunning`. -/
def demoRunningCheck : Healthcheck :=
  { id := 1, name := some "svc",
    endpoint := "http://localhost/healthcheck", interval := 5,
    enabled := some true }

/-- A state with one stored check (id 1, enabled) whose registry task is
live under handle token 0. -/
def demoRunning : ServerState :=
  { store := { rows := [(1, demoRunningCheck)], nextId := 2 },
    handlers := [(1, 0)], nextHandle := 1, aborted := [] }

/-- Witness for C4: enabling the already-running check id 1 is rejected with
the already-running `InvalidArgument` status. -/
theorem enable_ordering_and_errors_witness :
    (enable_healthcheck demoRunning (some 1) true true).1 =
      .error ⟨.invalidArgument, alreadyRunningMsg 1⟩ :=
  congrArg Prod.fst
    (((enable_ordering_and_errors demoRunning 1).2.1 demoRunningCheck
      (by decide) (by decide)).1)

theorem disable_not_running_eq {s : ServerState} {id : Int}
    (hlk : hmLookup s.handlers id = none) :
    disable_healthcheck s (some id) true =
      (.error ⟨.invalidArgument, notRunningMsg id⟩,
        { s with store := { rows := setEnabled s.store.rows id false,
                            nextId := s.store.nextId } }) := by
  unfold disable_healthcheck id_from_query_filter db.disable_healthcheck
  simp [hlk]

theorem disable_running_eq {s : ServerState} {id : Int} {hd : Nat}
    (hlk : hmLookup s.handlers id = some hd) :
    disable_healthcheck s (some id) true =
      (.ok (),
        { store := { rows := setEnabled s.store.rows id false,
                     nextId := s.store.nextId },
          handlers := hmErase s.handlers id,
          nextHandle := s.nextHandle,
          aborted := s.aborted ++ [hd] }) := by
  unfold disable_healthcheck id_from_query_filter db.disable_healthcheck
  simp [hlk]

/-- C5: Disable writes `enabled=false` to the store and then removes and
aborts the registry entry; when no entry was running it fails with the
not-running `InvalidArgument` rejection (the InvalidState error, a client
error) and the store write has already been applied; on success it returns
the empty response. -/
theorem disable_writes_store_then_stops (s : ServerState) (id : Int) :
    (hmLookup s.handlers id = none →
      disable_healthcheck s (some id) true =
        (.error ⟨.invalidArgument, notRunningMsg id⟩,
          { s with store := { rows := setEnabled s.store.rows id false,
                              nextId := s.store.nextId } }) ∧
      Code.invalidArgument.isClientError = true) ∧
    (∀ hd, hmLookup s.handlers id = some hd →
      disable_healthcheck s (some id) true =
        (.ok (),
          { store := { rows := setEnabled s.store.rows id false,
                       nextId := s.store.nextId },
            handlers := hmErase s.handlers id,
            nextHandle := s.nextHandle,
            aborted := s.aborted ++ [hd] })) := by
  constructor
  · intro hlk
    exact ⟨disable_not_running_eq hlk, rfl⟩
  · intro hd hlk
    exact disable_running_eq hlk

/-- Witness for C5: disabling the running check id 1 succeeds with the empty
response. -/
theorem disable_writes_store_then_stops_witness :
    (disable_healthcheck demoRunning (some 1) true).1 = .ok () :=
  congrArg Prod.fst
    ((disable_writes_store_then_stops demoRunning 1).2 0 (by decide))

/-- C6 counterexample: Get and Delete of an id absent from the store return
the `Internal` status code — a server-fault code — rather than the client
`NotFound` the claim requires. -/
theorem get_delete_absent_counterexample :
    (get_healthcheck demoInit (some 1) true).1 =
      .error ⟨.internal, DbError.rowNotFound.toMessage⟩ ∧
    (delete_healthcheck demoInit (some 1) true).1 =
      .error ⟨.internal, DbError.rowNotFound.toMessage⟩ ∧
    Code.internal ≠ Code.notFound ∧
    Code.internal.isClientError = false :=
  ⟨rfl, rfl, by decide, rfl⟩

/-- C6 (amended): for an id absent from the store in a well-formed state,
Get and Delete fail — without crashing — with the store's row-not-found
error surfaced as the `Internal` gRPC status (a server-fault code rather
than the claim's client `NotFound`), and neither the store nor the registry
changes (Delete finds no entry to stop, since live entries always have store
rows). -/
theorem get_delete_absent_id (s : ServerState) (id : Int) (hwf : WF s)
    (habs : id ∉ storeIds s) :
    get_healthcheck s (some id) true =
      (.error ⟨.internal, DbError.rowNotFound.toMessage⟩, s) ∧
    delete_healthcheck s (some id) true =
      (.error ⟨.internal, DbError.rowNotFound.toMessage⟩, s) := by
  have hlook : lookupRow s.store.rows id = none := lookupRow_none_iff.mpr habs
  have hh : id ∉ handlerIds s := fun hmem => habs (hwf.2.1 id hmem)
  have hlk : hmLookup s.handlers id = none := hmLookup_none_iff.mpr hh
  constructor
  · unfold get_healthcheck id_from_query_filter db.get_healthcheck
    simp [hlook]
  · unfold delete_healthcheck id_from_query_filter db.delete_healthcheck
    simp [hlk, hlook]

/-- Witness for C6 (amended): on the empty server state, Get of id 1 fails
with the Internal row-not-found status and leaves the state unchanged. -/
theorem get_delete_absent_id_witness :
    get_healthcheck demoInit (some 1) true =
      (.error ⟨.internal, DbError.rowNotFound.toMessage⟩, demoInit) :=
  (get_delete_absent_id demoInit 1 (by unfold WF; decide) (by decide)).1

/-- C7 counterexample: a scripted check whose script returns the string
"Alles gut" records pass=true together with that non-empty message, so the
message field is not present only on failure. -/
theorem luxury_success_message_counterexample :
    LuxuryCheck.spawnResult
      (LuxuryCheck.run
        { moduleLoad := .ok (), scriptResult := .ok "Alles gut" }) =
      (true, "Alles gut") ∧
    ("Alles gut" : String) ≠ "" := by
  constructor
  · rfl
  · decide

/-- C7 (amended): the HTTP prober records the empty message exactly on pass
and the error text on failure, while a scripted check records the script's
string return value — possibly non-empty — as the message on pass and the
error text on failure. -/
theorem message_empty_on_http_pass_only :
    BasicCheck.spawnResult (.ok ()) = (true, "") ∧
    (∀ e, BasicCheck.spawnResult (.error e) = (false, e)) ∧
    (∀ msg, LuxuryCheck.spawnResult (.ok msg) = (true, msg)) ∧
    (∀ e, LuxuryCheck.spawnResult (.error e) = (false, e)) :=
  ⟨rfl, fun _ => rfl, fun _ => rfl, fun _ => rfl⟩

/-- C8: with the photon module loaded, a script execution that returns
normally is recorded as pass=true with its string return value as the
message; a script that raises is caught — `run` returns instead of
crashing — and recorded as pass=false with the error text as the message. -/
theorem script_pass_fail_boundary (env : LuaEnv)
    (hload : env.moduleLoad = .ok ()) :
    (∀ msg, env.scriptResult = .ok msg →
      LuxuryCheck.spawnResult (LuxuryCheck.run env) = (true, msg)) ∧
    (∀ err, env.scriptResult = .error err →
      LuxuryCheck.spawnResult (LuxuryCheck.run env) = (false, err)) := by
  unfold LuxuryCheck.run
  rw [hload]
  exact ⟨fun msg h => by rw [h]; rfl, fun err h => by rw [h]; rfl⟩

/-- Witness for C8: a script raising "runtime error: This failed" is
recorded as a failure carrying that error text. -/
theorem script_pass_fail_boundary_witness :
    LuxuryCheck.spawnResult
      (LuxuryCheck.run
        { moduleLoad := .ok (),
          scriptResult := .error "runtime error: This failed" }) =
      (false, "runtime error: This failed") :=
  (script_pass_fail_boundary _ rfl).2 _ rfl

/-- Fresh handle tokens for the rows started during reconciliation. -/
def spawnAll : List (Int × Healthcheck) → Nat → Handlers
  | [], _ => []
  | r :: rest, h0 => (r.1, h0) :: spawnAll rest (h0 + 1)

/-- Modelled from the spec: `load_from_database` is re-exported from
src/lib.rs (line 10) but its defining module is not part of the snapshot.
Per the spec's reconciliation contract, on launch the core fetches every
stored definition with `enabled=true` and starts a Registry task for each
before control-plane traffic is accepted. -/
def load_from_database (st : Store) : ServerState :=
  let enabledRows := st.rows.filter (fun r => r.2.enabled = some true)
  { store := st,
    handlers := spawnAll enabledRows 0,
    nextHandle := enabledRows.length,
    aborted := [] }

theorem spawnAll_keys :
    ∀ (rows : List (Int × Healthcheck)) (h0 : Nat),
      (spawnAll rows h0).map Prod.fst = rows.map Prod.fst
  | [], _ => rfl
  | r :: rest, h0 => by
    simp only [spawnAll, List.map_cons, List.cons.injEq, true_and]
    exact spawnAll_keys rest (h0 + 1)

/-- A store with two enabled definitions (ids 1, 2) and one disabled one
(id 3). -/
def demoStore : Store :=
  { rows :=
      [(1, { id := 1, name := some "a", endpoint := "http://a/", interval := 1,
             enabled := some true }),
       (2, { id := 2, name := some "b", endpoint := "http://b/", interval := 2,
             enabled := some true }),
       (3, { id := 3, name := some "c", endpoint := "http://c/", interval := 3,
             enabled := some false })],
    nextId := 4 }

/-- C9: after startup reconciliation the registry contains exactly the ids
of the stored definitions with `enabled=true`; in particular, for the store
with two enabled and one disabled definition it contains exactly the two
enabled ids. -/
theorem startup_reconciliation (st : Store) :
    handlerIds (load_from_database st) =
      (st.rows.filter (fun r => r.2.enabled = some true)).map Prod.fst ∧
    (∀ id, id ∈ handlerIds (load_from_database st) ↔
      ∃ c, (id, c) ∈ st.rows ∧ c.enabled = some true) ∧
    handlerIds (load_from_database demoStore) = [1, 2] := by
  refine ⟨?_, ?_, by decide⟩
  · unfold load_from_database handlerIds
    exact spawnAll_keys _ _
  · intro id
    unfold load_from_database handlerIds
    dsimp only
    rw [spawnAll_keys]
    simp only [List.mem_map, List.mem_filter, decide_eq_true_eq]
    constructor
    · rintro ⟨e, ⟨he, hen⟩, rfl⟩
      exact ⟨e.2, he, hen⟩
    · rintro ⟨c, hc, hen⟩
      exact ⟨(id, c), ⟨hc, hen⟩, rfl⟩

/-- C10 counterexample: on the name "vorona" (bytes below), decoding the
quoted output of `encode_table_name` yields `none`, not `Some "vorona"` —
the surrounding quote bytes make `strip_prefix` miss and base64 rejects the
quote. -/
theorem table_name_roundtrip_counterexample :
    decode_table_name (encode_table_name [118, 111, 114, 111, 110, 97]) =
      none ∧
    (none : Option (List Nat)) ≠ some [118, 111, 114, 111, 110, 97] := by
  decide

/-- C10 (amended): decoding inverts encoding only once the surrounding
double-quote bytes are removed — on the unquoted `check_`-tagged base64
identifier, `decode_table_name` returns the original name; on
`encode_table_name`'s actual (quoted) output it always returns `none`. -/
theorem table_name_roundtrip_unquoted (s : List Nat)
    (hbytes : ∀ b ∈ s, b < 256) :
    decode_table_name (checkTag ++ b64encode s) = some s ∧
    decode_table_name (encode_table_name s) = none := by
  constructor
  · unfold decode_table_name
    rw [stripLeading_append]
    exact b64decode_encode s hbytes
  · unfold decode_table_name encode_table_name
    simp [stripLeading, checkTag, List.cons_append, List.append_assoc,
      b64decode, padByte, byteSextet]

/-- Witness for C10 (amended): the unquoted identifier of "vorona" decodes
back to "vorona". -/
theorem table_name_roundtrip_unquoted_witness :
    decode_table_name (checkTag ++ b64encode [118, 111, 114, 111, 110, 97]) =
      some [118, 111, 114, 111, 110, 97] :=
  (table_name_roundtrip_unquoted [118, 111, 114, 111, 110, 97] (by decide)).1

end PhotonGun
